import Mathlib

/-!
Verification of the command-dispatch and drive-actuation core of the
LoR_v3_Web_buttons firmware (`src/LoR_v3_Web_buttons.ino`).

The embedding models:
* `percentToServoAngle` — Arduino `constrain` / `map` based percent-to-angle
  conversion (`map` performs C `long` division, which truncates toward zero,
  hence `Int.tdiv`);
* the drive layer `Left_Group_Write` / `Right_Group_Write` / `Motor_Control` /
  `Motor_STOP` acting on twelve actuator slots (`Fin 12`; index `i` stands for
  the source's 1-indexed slot `i+1`, so indices `0..5` are slots 1..6, the
  left group, and indices `6..11` are slots 7..12, the right group);
* the motor-profile registry `motorTypeConfigs` and the profile-selection
  loop of `ConfigureMotorOutput`;
* the command decoder of `cmd_handler` (`GET /action?go=CMD`), as a function
  from a system state and a token to a new state and an outcome
  (`res = 0` → `Ok` → HTTP 200, `res = -1` → `Fail` → HTTP 500).

State held in globals in the source (`driveSpeed`, the `speed` label string,
the last angle written to each servo slot, the LED strip color) is gathered
into the structure `SysState` and passed explicitly.
-/

namespace LoR

/-- Arduino `constrain(amt, low, high)`:
`(amt < low ? low : (amt > high ? high : amt))`. -/
def constrain (amt low high : Int) : Int :=
  if amt < low then low else if amt > high then high else amt

/-- Arduino `map(x, in_min, in_max, out_min, out_max)` on `long`:
`(x - in_min) * (out_max - out_min) / (in_max - in_min) + out_min`, where `/`
is C integer division (truncation toward zero, `Int.tdiv`). -/
def arduinoMap (x inMin inMax outMin outMax : Int) : Int :=
  Int.tdiv ((x - inMin) * (outMax - outMin)) (inMax - inMin) + outMin

/-- `percentToServoAngle` (source lines 166-170): clamp the percent to
[-100,100], map it onto [0,180], clamp the result to [0,180]. -/
def percentToServoAngle (pct : Int) : Int :=
  let p := constrain pct (-100) 100
  let ang := arduinoMap p (-100) 100 0 180
  constrain ang 0 180

/-- Modelled from the spec: the floor-based linear map of `pct` from domain
[-100,100] onto range [0,180], `⌊(pct + 100) * 180 / 200⌋`, used to compare
the source conversion against the spec's description. -/
def specFloorMap (pct : Int) : Int :=
  Int.fdiv ((pct + 100) * 180) 200

/-- `enum MotorType` from the source. -/
inductive MotorType where
  | MG90_CR
  | MG90_Degree
  | N20Plus
  | STD_SERVO
  | Victor_SPX
  | Talon_SRX
  | CUSTOM
deriving DecidableEq, Repr

/-- `struct MotorTypeConfig`. The source stores `pwmFreq`, `inputMin` and
`inputMax` as `float`, but every registry entry holds exact small integers,
so they are embedded as `Int`. -/
structure MotorTypeConfig where
  type : MotorType
  pwmFreq : Int
  minPulseUs : Int
  maxPulseUs : Int
  inputMin : Int
  inputMax : Int
deriving DecidableEq, Repr

/-- The fixed ordered registry `motorTypeConfigs[]` (source lines 114-121). -/
def motorTypeConfigs : List MotorTypeConfig :=
  [ ⟨.MG90_CR,     50,  500, 2500, -1, 1⟩,
    ⟨.MG90_Degree, 50,  500, 2500,  1, 180⟩,
    ⟨.N20Plus,     50, 1000, 2000, -1, 1⟩,
    ⟨.Victor_SPX,  50, 1000, 2000, -1, 1⟩,
    ⟨.Talon_SRX,   50, 1000, 2000, -1, 1⟩,
    ⟨.STD_SERVO,   50, 1000, 2000,  0, 180⟩ ]

/-- The timing parameters `ConfigureMotorOutput` resolves for a slot. -/
structure ResolvedProfile where
  pwmFreq : Int
  minPulseUs : Int
  maxPulseUs : Int
deriving DecidableEq, Repr

/-- The profile-selection loop inside `ConfigureMotorOutput` (source lines
124-136): walk the registry and break at the first entry whose tag matches,
keeping the accumulator (the defaults set before the loop) otherwise. -/
def resolveProfile : List MotorTypeConfig → MotorType → ResolvedProfile → ResolvedProfile
  | [], _, acc => acc
  | c :: rest, t, acc =>
      if c.type = t then ⟨c.pwmFreq, c.minPulseUs, c.maxPulseUs⟩
      else resolveProfile rest t acc

/-- Profile resolution of `ConfigureMotorOutput`: defaults
`{50 Hz, 1000-2000 µs}` overwritten by the first matching registry entry. -/
def ConfigureMotorOutputProfile (motorType : MotorType) : ResolvedProfile :=
  resolveProfile motorTypeConfigs motorType ⟨50, 1000, 2000⟩

/-- Modelled from the spec: `lookup` returns the first registered profile
whose tag matches, and the default profile `{50 Hz, 1000-2000 µs}` when none
matches. Stated with `List.find?` to compare with the source's loop. -/
def lookupFirstMatch (t : MotorType) : ResolvedProfile :=
  match motorTypeConfigs.find? (fun c => decide (c.type = t)) with
  | some c => ⟨c.pwmFreq, c.minPulseUs, c.maxPulseUs⟩
  | none => ⟨50, 1000, 2000⟩

/-- A FastLED `CRGB` color triple. -/
structure CRGB where
  r : Nat
  g : Nat
  b : Nat
deriving DecidableEq, Repr

def LED_Red : CRGB := ⟨255, 0, 0⟩

def LED_Green : CRGB := ⟨0, 255, 0⟩

def LED_Blue : CRGB := ⟨0, 0, 255⟩

def LED_White : CRGB := ⟨255, 255, 255⟩

def LED_Yellow : CRGB := ⟨255, 255, 0⟩

def LED_Cyan : CRGB := ⟨0, 255, 255⟩

def LED_Purple : CRGB := ⟨255, 0, 255⟩

/-- Speed presets (source lines 63-64): `highSpeed = 90`, `lowSpeed = 60`,
percent of full scale. -/
def highSpeed : Int := 90

def lowSpeed : Int := 60

/-- The mutable globals of the firmware relevant to command handling:
`driveSpeed`, the `speed` label string, the last angle written to each of the
twelve servo slots, and the LED strip color. -/
structure SysState where
  driveSpeed : Int
  speed : String
  slots : Fin 12 → Int
  led : CRGB

def setLED (st : SysState) (c : CRGB) : SysState :=
  { st with led := c }

/-- `Left_Group_Write(pct)`: one angle computed once, written to slots 1..6
(indices 0..5). -/
def Left_Group_Write (st : SysState) (pct : Int) : SysState :=
  let angle := percentToServoAngle pct
  { st with slots := fun s => if s.val < 6 then angle else st.slots s }

/-- `Right_Group_Write(pct)`: one angle computed once, written to slots 7..12
(indices 6..11). -/
def Right_Group_Write (st : SysState) (pct : Int) : SysState :=
  let angle := percentToServoAngle pct
  { st with slots := fun s => if 6 ≤ s.val then angle else st.slots s }

/-- `Motor_Control(LeftPct, RightPct)`: left group first, then right group. -/
def Motor_Control (st : SysState) (leftPct rightPct : Int) : SysState :=
  Right_Group_Write (Left_Group_Write st leftPct) rightPct

/-- `Motor_STOP()`: the literal neutral angle 90 written to all twelve
slots. -/
def Motor_STOP (st : SysState) : SysState :=
  { st with slots := fun _ => 90 }

def functionForward (st : SysState) : SysState :=
  Motor_Control st (-st.driveSpeed) st.driveSpeed

def functionBackward (st : SysState) : SysState :=
  Motor_Control st st.driveSpeed (-st.driveSpeed)

def functionLeft (st : SysState) : SysState :=
  Motor_Control st (-st.driveSpeed) (-st.driveSpeed)

def functionRight (st : SysState) : SysState :=
  Motor_Control st st.driveSpeed st.driveSpeed

def functionStop (st : SysState) : SysState :=
  Motor_STOP st

/-- `functionA()`..`functionD()` are empty stub hooks. -/
def functionA (st : SysState) : SysState := st

def functionB (st : SysState) : SysState := st

def functionC (st : SysState) : SysState := st

def functionD (st : SysState) : SysState := st

/-- The handler's outcome: `res = 0` → 200 OK, `res = -1` → 500. -/
inductive Outcome where
  | Ok
  | Fail
deriving DecidableEq, Repr

/-- The command decoder of `cmd_handler` (source lines 319-355), after the
query string has been parsed: `LED_Green` first, then the `strcmp` chain in
source order; the final `else` is the unknown-command fail-safe
(`LED_Red(); Motor_STOP(); res = -1`). -/
def cmd_handler (st : SysState) (go : String) : SysState × Outcome :=
  let st := setLED st LED_Green
  if go = "high" then
    (setLED { st with driveSpeed := highSpeed, speed := "High" } LED_Purple, .Ok)
  else if go = "low" then
    (setLED { st with driveSpeed := lowSpeed, speed := "Low" } LED_Yellow, .Ok)
  else if go = "forward" then (functionForward st, .Ok)
  else if go = "left" then (functionLeft st, .Ok)
  else if go = "right" then (functionRight st, .Ok)
  else if go = "backward" then (functionBackward st, .Ok)
  else if go = "stop" then (setLED (functionStop st) LED_Red, .Ok)
  else if go = "functionA" then (functionA (setLED st LED_Cyan), .Ok)
  else if go = "functionB" then (functionB (setLED st LED_Cyan), .Ok)
  else if go = "functionC" then (functionC (setLED st LED_Cyan), .Ok)
  else if go = "functionD" then (functionD (setLED st LED_Cyan), .Ok)
  else (Motor_STOP (setLED st LED_Red), .Fail)

/-- The recognized command tokens (spec §6). -/
def recognizedTokens : List String :=
  ["forward", "backward", "left", "right", "stop", "low", "high",
   "functionA", "functionB", "functionC", "functionD"]

/-- The global state after `setup()`: `driveSpeed = lowSpeed` (initializer,
line 65), `speed = "low"` (line 307), every slot configured with startup
angle 90 (`ConfigureMotorOutput(s, ·, 90)` for s = 1..12, lines 427-428),
LED white at the end of `setup()`. -/
def initialState : SysState :=
  { driveSpeed := lowSpeed, speed := "low", slots := fun _ => 90, led := LED_White }

/-- Run `cmd_handler` over a list of successive command tokens. -/
def execList (st : SysState) : List String → SysState
  | [] => st
  | t :: ts => execList (cmd_handler st t).1 ts

/-- Modelled from the spec: the drive magnitude after a token list is that of
the most recent speed selection, `lowSpeed` when none has been made. -/
def expectedSpeed (toks : List String) : Int :=
  toks.foldl (fun m t => if t = "high" then highSpeed else if t = "low" then lowSpeed else m) lowSpeed

/-! ### Helper lemmas about `constrain` and `percentToServoAngle` -/

lemma constrain_mono {a b low high : Int} (hlh : low ≤ high) (h : a ≤ b) :
    constrain a low high ≤ constrain b low high := by
  unfold constrain
  split_ifs <;> omega

lemma constrain_mem {x low high : Int} (h : low ≤ high) :
    low ≤ constrain x low high ∧ constrain x low high ≤ high := by
  unfold constrain
  split_ifs <;> omega

lemma constrain_eq_self {x low high : Int} (h1 : low ≤ x) (h2 : x ≤ high) :
    constrain x low high = x := by
  unfold constrain
  split_ifs <;> omega

lemma constrain_constrain {x low high : Int} (h : low ≤ high) :
    constrain (constrain x low high) low high = constrain x low high := by
  unfold constrain
  split_ifs <;> omega

/-- On the clamped domain the conversion is the Euclidean-division linear
map. -/
lemma percentToServoAngle_eq {pct : Int} (h1 : -100 ≤ pct) (h2 : pct ≤ 100) :
    percentToServoAngle pct = ((pct + 100) * 180) / 200 := by
  have hnum : (0 : Int) ≤ (pct + 100) * 180 := by nlinarith
  have htdiv : Int.tdiv ((pct + 100) * 180) 200 = ((pct + 100) * 180) / 200 :=
    Int.tdiv_eq_ediv hnum (by norm_num)
  have hlo : (0 : Int) ≤ ((pct + 100) * 180) / 200 := Int.ediv_nonneg hnum (by norm_num)
  have hhi : ((pct + 100) * 180) / 200 ≤ 180 := by
    have h36 : ((pct + 100) * 180) / 200 ≤ (36000 : Int) / 200 :=
      Int.ediv_le_ediv (by norm_num) (by nlinarith)
    omega
  show constrain (arduinoMap (constrain pct (-100) 100) (-100) 100 0 180) 0 180 = _
  rw [constrain_eq_self h1 h2]
  unfold arduinoMap
  have hform : (pct - -100) * (180 - 0) = (pct + 100) * 180 := by ring
  have hden : (100 : Int) - -100 = 200 := by norm_num
  rw [hform, hden, add_zero, htdiv]
  exact constrain_eq_self hlo hhi

lemma percentToServoAngle_constrain (pct : Int) :
    percentToServoAngle (constrain pct (-100) 100) = percentToServoAngle pct := by
  unfold percentToServoAngle
  rw [constrain_constrain (by norm_num)]

lemma percentToServoAngle_bounds (pct : Int) :
    0 ≤ percentToServoAngle pct ∧ percentToServoAngle pct ≤ 180 := by
  unfold percentToServoAngle
  exact constrain_mem (by norm_num)

/-! ### C1, C7, C9: the percent-to-angle conversion -/

/-- Claim C1: for every integer `pct` in [-100,100], `percentToServoAngle pct`
is in [0,180] and equals the floor-based linear map of `pct` from [-100,100]
onto [0,180] (truncation toward zero coincides with floor here because the
numerator is nonnegative); in particular -100 ↦ 0, 0 ↦ 90, 100 ↦ 180. -/
theorem percentToServoAngle_linear_on_domain :
    ∀ pct : Int, -100 ≤ pct → pct ≤ 100 →
      (0 ≤ percentToServoAngle pct ∧ percentToServoAngle pct ≤ 180) ∧
      percentToServoAngle pct = specFloorMap pct ∧
      percentToServoAngle (-100) = 0 ∧
      percentToServoAngle 0 = 90 ∧
      percentToServoAngle 100 = 180 := by
  intro pct h1 h2
  refine ⟨percentToServoAngle_bounds pct, ?_, by decide, by decide, by decide⟩
  rw [percentToServoAngle_eq h1 h2]
  unfold specFloorMap
  exact (Int.fdiv_eq_ediv _ (by norm_num)).symm

/-- Witness for C1, at `pct = 37`. -/
theorem percentToServoAngle_linear_on_domain_witness :
    (0 ≤ percentToServoAngle 37 ∧ percentToServoAngle 37 ≤ 180) ∧
    percentToServoAngle 37 = specFloorMap 37 ∧
    percentToServoAngle (-100) = 0 ∧
    percentToServoAngle 0 = 90 ∧
    percentToServoAngle 100 = 180 :=
  percentToServoAngle_linear_on_domain 37 (by decide) (by decide)

/-- Claim C7: `percentToServoAngle` of any integer equals `percentToServoAngle`
of the value clamped to [-100,100]; in particular
`percentToServoAngle 500 = percentToServoAngle 100` and
`percentToServoAngle (-500) = percentToServoAngle (-100)`. -/
theorem percentToServoAngle_clamps_outside :
    (∀ pct : Int, percentToServoAngle pct = percentToServoAngle (constrain pct (-100) 100)) ∧
    percentToServoAngle 500 = percentToServoAngle 100 ∧
    percentToServoAngle (-500) = percentToServoAngle (-100) := by
  refine ⟨fun pct => (percentToServoAngle_constrain pct).symm, by decide, by decide⟩

/-- Claim C9: `percentToServoAngle` is monotone nondecreasing on all of ℤ. -/
theorem percentToServoAngle_monotone :
    ∀ a b : Int, a ≤ b → percentToServoAngle a ≤ percentToServoAngle b := by
  intro a b hab
  rw [← percentToServoAngle_constrain a, ← percentToServoAngle_constrain b]
  obtain ⟨ha1, ha2⟩ := @constrain_mem a (-100) 100 (by norm_num)
  obtain ⟨hb1, hb2⟩ := @constrain_mem b (-100) 100 (by norm_num)
  rw [percentToServoAngle_eq ha1 ha2, percentToServoAngle_eq hb1 hb2]
  have hc : constrain a (-100) 100 ≤ constrain b (-100) 100 :=
    constrain_mono (by norm_num) hab
  exact Int.ediv_le_ediv (by norm_num) (by nlinarith)

/-- Witness for C9, at `a = -3`, `b = 5`. -/
theorem percentToServoAngle_monotone_witness :
    percentToServoAngle (-3) ≤ percentToServoAngle 5 :=
  percentToServoAngle_monotone (-3) 5 (by decide)

/-! ### The drive layer applied by the command decoder -/

lemma Motor_Control_slots (st : SysState) (l r : Int) :
    (Motor_Control st l r).slots = fun s : Fin 12 =>
      if s.val < 6 then percentToServoAngle l else percentToServoAngle r := by
  funext s
  simp only [Motor_Control, Right_Group_Write, Left_Group_Write]
  split_ifs <;> first | rfl | omega

/-- Claim C2: with the current `driveSpeed` magnitude, "forward" writes
`percentToServoAngle (-speed)` to slots 1..6 (indices 0..5) and
`percentToServoAngle speed` to slots 7..12 (indices 6..11); "backward" uses
(+speed, -speed); "left" uses (-speed, -speed); "right" uses
(+speed, +speed); `Motor_Control` applies the left group first, then the
right group. -/
theorem cmd_handler_drive_sign_convention :
    ∀ st : SysState,
      (cmd_handler st "forward").1.slots = (fun s : Fin 12 =>
        if s.val < 6 then percentToServoAngle (-st.driveSpeed)
        else percentToServoAngle st.driveSpeed) ∧
      (cmd_handler st "backward").1.slots = (fun s : Fin 12 =>
        if s.val < 6 then percentToServoAngle st.driveSpeed
        else percentToServoAngle (-st.driveSpeed)) ∧
      (cmd_handler st "left").1.slots = (fun s : Fin 12 =>
        if s.val < 6 then percentToServoAngle (-st.driveSpeed)
        else percentToServoAngle (-st.driveSpeed)) ∧
      (cmd_handler st "right").1.slots = (fun s : Fin 12 =>
        if s.val < 6 then percentToServoAngle st.driveSpeed
        else percentToServoAngle st.driveSpeed) ∧
      (∀ l r : Int, Motor_Control st l r = Right_Group_Write (Left_Group_Write st l) r) := by
  intro st
  refine ⟨?_, ?_, ?_, ?_, fun l r => rfl⟩
  · show (Motor_Control (setLED st LED_Green) (-st.driveSpeed) st.driveSpeed).slots = _
    exact Motor_Control_slots _ _ _
  · show (Motor_Control (setLED st LED_Green) st.driveSpeed (-st.driveSpeed)).slots = _
    exact Motor_Control_slots _ _ _
  · show (Motor_Control (setLED st LED_Green) (-st.driveSpeed) (-st.driveSpeed)).slots = _
    exact Motor_Control_slots _ _ _
  · show (Motor_Control (setLED st LED_Green) st.driveSpeed st.driveSpeed).slots = _
    exact Motor_Control_slots _ _ _

/-- Claim C3: from every state — whatever commands ran before and whatever
speed mode is selected — "stop" leaves every one of the twelve slots at the
literal angle 90; the resulting slot assignment is one constant function,
independent of the whole incoming state (so in particular of the speed
state). -/
theorem cmd_handler_stop_writes_90 :
    ∀ st : SysState, (cmd_handler st "stop").1.slots = fun _ : Fin 12 => (90 : Int) := by
  intro st
  rfl

/-- Claim C4: any token outside the recognized set yields outcome `Fail` and
the fail-safe stop — all twelve slots at 90, the same actuator state "stop"
produces, but with the opposite outcome signal. -/
theorem cmd_handler_unknown_failsafe :
    ∀ (st : SysState) (go : String), go ∉ recognizedTokens →
      (cmd_handler st go).2 = Outcome.Fail ∧
      (cmd_handler st go).1.slots = (fun _ : Fin 12 => (90 : Int)) ∧
      (cmd_handler st go).1.slots = (cmd_handler st "stop").1.slots ∧
      (cmd_handler st "stop").2 = Outcome.Ok := by
  intro st go h
  simp only [recognizedTokens, List.mem_cons, List.not_mem_nil, or_false, not_or] at h
  obtain ⟨hf, hb, hl, hr, hs, hlo, hhi, hA, hB, hC, hD⟩ := h
  simp only [cmd_handler]
  rw [if_neg hhi, if_neg hlo, if_neg hf, if_neg hl, if_neg hr, if_neg hb, if_neg hs,
    if_neg hA, if_neg hB, if_neg hC, if_neg hD]
  exact ⟨rfl, rfl, rfl, rfl⟩

/-- Witness for C4, at the initial state and token "banana". -/
theorem cmd_handler_unknown_failsafe_witness :
    (cmd_handler initialState "banana").2 = Outcome.Fail ∧
    (cmd_handler initialState "banana").1.slots = (fun _ : Fin 12 => (90 : Int)) ∧
    (cmd_handler initialState "banana").1.slots = (cmd_handler initialState "stop").1.slots ∧
    (cmd_handler initialState "stop").2 = Outcome.Ok :=
  cmd_handler_unknown_failsafe initialState "banana" (by decide)

/-- Claim C10: an unrecognized token leaves the speed state untouched — both
the selected-mode label and the active magnitude `driveSpeed` keep their
prior values — while the error path only repositions the actuators (all
slots to 90) and sets the indicator (red). -/
theorem cmd_handler_unknown_preserves_speed :
    ∀ (st : SysState) (go : String), go ∉ recognizedTokens →
      (cmd_handler st go).1.driveSpeed = st.driveSpeed ∧
      (cmd_handler st go).1.speed = st.speed ∧
      (cmd_handler st go).1.led = LED_Red ∧
      (cmd_handler st go).1.slots = (fun _ : Fin 12 => (90 : Int)) := by
  intro st go h
  simp only [recognizedTokens, List.mem_cons, List.not_mem_nil, or_false, not_or] at h
  obtain ⟨hf, hb, hl, hr, hs, hlo, hhi, hA, hB, hC, hD⟩ := h
  simp only [cmd_handler]
  rw [if_neg hhi, if_neg hlo, if_neg hf, if_neg hl, if_neg hr, if_neg hb, if_neg hs,
    if_neg hA, if_neg hB, if_neg hC, if_neg hD]
  exact ⟨rfl, rfl, rfl, rfl⟩

/-- Witness for C10, at the initial state and token "xyz". -/
theorem cmd_handler_unknown_preserves_speed_witness :
    (cmd_handler initialState "xyz").1.driveSpeed = initialState.driveSpeed ∧
    (cmd_handler initialState "xyz").1.speed = initialState.speed ∧
    (cmd_handler initialState "xyz").1.led = LED_Red ∧
    (cmd_handler initialState "xyz").1.slots = (fun _ : Fin 12 => (90 : Int)) :=
  cmd_handler_unknown_preserves_speed initialState "xyz" (by decide)

/-! ### C5: the speed-selection state -/

set_option maxHeartbeats 1000000 in
lemma cmd_handler_driveSpeed (st : SysState) (t : String) :
    (cmd_handler st t).1.driveSpeed =
      if t = "high" then highSpeed else if t = "low" then lowSpeed else st.driveSpeed := by
  simp only [cmd_handler]
  split_ifs <;> rfl

lemma execList_driveSpeed (toks : List String) :
    ∀ st : SysState, (execList st toks).driveSpeed =
      toks.foldl
        (fun m t => if t = "high" then highSpeed else if t = "low" then lowSpeed else m)
        st.driveSpeed := by
  induction toks with
  | nil => intro st; rfl
  | cons t ts ih =>
      intro st
      show (execList (cmd_handler st t).1 ts).driveSpeed = _
      rw [ih, cmd_handler_driveSpeed, List.foldl_cons]

/-- Claim C5: after any command sequence from the initial state, the drive
magnitude equals that of the most recent speed selection — `highSpeed` after
"high", `lowSpeed` after "low" — with last-write-wins and `lowSpeed` as the
default when no selection has been made; in particular
"high";"low";"forward" drives with `lowSpeed`. -/
theorem driveSpeed_last_selection :
    initialState.driveSpeed = lowSpeed ∧
    (∀ toks : List String, (execList initialState toks).driveSpeed = expectedSpeed toks) ∧
    (execList initialState ["high", "low", "forward"]).driveSpeed = lowSpeed ∧
    (execList initialState ["low", "high", "forward"]).driveSpeed = highSpeed := by
  refine ⟨rfl, fun toks => execList_driveSpeed toks initialState, rfl, rfl⟩

/-! ### C6: the slot-range invariant -/

/-- Every slot's last written value lies in [0,180]. -/
def SlotsInRange (st : SysState) : Prop :=
  ∀ s : Fin 12, 0 ≤ st.slots s ∧ st.slots s ≤ 180

lemma initialState_slots (s : Fin 12) : initialState.slots s = 90 := rfl

lemma Motor_Control_slots_range (st : SysState) (l r : Int) (s : Fin 12) :
    0 ≤ (Motor_Control st l r).slots s ∧ (Motor_Control st l r).slots s ≤ 180 := by
  simp only [Motor_Control_slots]
  by_cases hs : (s : ℕ) < 6
  · rw [if_pos hs]
    exact percentToServoAngle_bounds l
  · rw [if_neg hs]
    exact percentToServoAngle_bounds r

set_option maxHeartbeats 1000000 in
lemma cmd_handler_slots_range (st : SysState) (t : String) (h : SlotsInRange st) :
    SlotsInRange (cmd_handler st t).1 := by
  by_cases h1 : t = "high"
  · subst h1; exact h
  by_cases h2 : t = "low"
  · subst h2; exact h
  by_cases h3 : t = "forward"
  · subst h3
    intro s
    show 0 ≤ (Motor_Control (setLED st LED_Green) (-st.driveSpeed) st.driveSpeed).slots s ∧
      (Motor_Control (setLED st LED_Green) (-st.driveSpeed) st.driveSpeed).slots s ≤ 180
    exact Motor_Control_slots_range _ _ _ s
  by_cases h4 : t = "left"
  · subst h4
    intro s
    show 0 ≤ (Motor_Control (setLED st LED_Green) (-st.driveSpeed) (-st.driveSpeed)).slots s ∧
      (Motor_Control (setLED st LED_Green) (-st.driveSpeed) (-st.driveSpeed)).slots s ≤ 180
    exact Motor_Control_slots_range _ _ _ s
  by_cases h5 : t = "right"
  · subst h5
    intro s
    show 0 ≤ (Motor_Control (setLED st LED_Green) st.driveSpeed st.driveSpeed).slots s ∧
      (Motor_Control (setLED st LED_Green) st.driveSpeed st.driveSpeed).slots s ≤ 180
    exact Motor_Control_slots_range _ _ _ s
  by_cases h6 : t = "backward"
  · subst h6
    intro s
    show 0 ≤ (Motor_Control (setLED st LED_Green) st.driveSpeed (-st.driveSpeed)).slots s ∧
      (Motor_Control (setLED st LED_Green) st.driveSpeed (-st.driveSpeed)).slots s ≤ 180
    exact Motor_Control_slots_range _ _ _ s
  by_cases h7 : t = "stop"
  · subst h7
    intro s
    show (0 : Int) ≤ 90 ∧ (90 : Int) ≤ 180
    norm_num
  by_cases h8 : t = "functionA"
  · subst h8; exact h
  by_cases h9 : t = "functionB"
  · subst h9; exact h
  by_cases h10 : t = "functionC"
  · subst h10; exact h
  by_cases h11 : t = "functionD"
  · subst h11; exact h
  intro s
  simp only [cmd_handler]
  rw [if_neg h1, if_neg h2, if_neg h3, if_neg h4, if_neg h5, if_neg h6, if_neg h7,
    if_neg h8, if_neg h9, if_neg h10, if_neg h11]
  show (0 : Int) ≤ 90 ∧ (90 : Int) ≤ 180
  norm_num

lemma execList_slots_range (toks : List String) :
    ∀ st : SysState, SlotsInRange st → SlotsInRange (execList st toks) := by
  induction toks with
  | nil => exact fun _ h => h
  | cons t ts ih => exact fun st h => ih _ (cmd_handler_slots_range st t h)

/-- Claim C6: from the startup configuration (every slot written to the
startup angle 90) and after any sequence of commands, recognized or not,
every slot's last written value is in [0,180]; 90 is the startup value of
every slot and the value "stop" restores to every slot. -/
theorem slot_values_in_range :
    ∀ (toks : List String) (s : Fin 12),
      (0 ≤ (execList initialState toks).slots s ∧
        (execList initialState toks).slots s ≤ 180) ∧
      initialState.slots s = 90 ∧
      (cmd_handler (execList initialState toks) "stop").1.slots s = 90 := by
  intro toks s
  refine ⟨execList_slots_range toks initialState (fun u => ?_) s, rfl, rfl⟩
  rw [initialState_slots u]
  norm_num

/-! ### C8: the motor-profile lookup -/

/-- Claim C8: profile resolution is a total function on `MotorType`; for
every type it returns the first registry entry whose tag matches, and the
default profile {50 Hz, 1000-2000 µs} when no entry matches — in particular
for `CUSTOM`, which has no registry entry. -/
theorem ConfigureMotorOutputProfile_first_match :
    (∀ t : MotorType, ConfigureMotorOutputProfile t = lookupFirstMatch t) ∧
    ConfigureMotorOutputProfile MotorType.CUSTOM = ⟨50, 1000, 2000⟩ := by
  constructor
  · intro t
    cases t <;> rfl
  · rfl

end LoR
